import Mathlib

/-!
Verification development for the VantagePoint repository.

This file gives a shallow embedding of the core logic of the repository:

* `src/features/engine.py` — the Feature Engine (`last15_features`,
  `head_to_head_over_rate`, `map_mixture_expectation`);
* `src/ingest/vlr.py` — the Acquisition Reconciler (the merge step of
  `parse_match`, the map-row construction of the API path
  (`api_fetch_match`) and of the scraper path (`_parse_maps_and_players`),
  the match-id extraction and the batch entry point `scrape_matches`);
* `src/ingest/prizepicks.py` — the Offer Normalizer
  (`load_current_offers_valorant`).

Modelling conventions, used consistently below:

* a pandas DataFrame of player-map records is a `List Rec`; a row's stat
  columns are a total map `String → ℚ` (exact rational values stand in
  for the floats of the source; the claims under study are about exact
  equalities and comparisons that floats would only blur);
* the float sentinel `np.nan` of the source is `PyVal.nan` (inside the
  dict returned by `last15_features`) or `Option.none` (for a plainly
  typed field);
* a Python dict literal with fixed keys is either an association list
  `List (String × PyVal)` (where the set of keys matters, as for
  `last15_features`) or a Lean structure (where it does not);
* Python `None` for a string field is `Option.none`; Python truthiness
  of such a field (`if not meta.get(k)`, `x or y`) is `falsyStr` / `pyOr`,
  which treat both `none` and the empty string as falsy, exactly like the
  source;
* dates are modelled as integers: the engine only ever compares them
  (`sort_values('date', ascending=False)`), so any linearly ordered stand
  in is faithful;
* `pandas.sort_values` is `List.insertionSort` with the corresponding
  total transitive relation (the claims never depend on the order among
  tied keys);
* the floating square root computed by `pandas.std` is represented
  symbolically by the constructor `PyVal.sqrtRat q`, which denotes the
  real number `Real.sqrt q`; the denotation is `PyVal.toReal`.
-/

namespace VantagePoint

/-! ## Record Store -/

/-- One player-map record (one row of the `player_maps` DataFrame).
Only the columns read by the Feature Engine are kept as typed fields;
the stat columns (`kills`, `deaths`, ...) are the total map `stats`. -/
structure Rec where
  player : String
  opponent : String
  map_name : String
  date : Int
  stats : String → ℚ

/-- Descending-date order used by `sort_values('date', ascending=False)`. -/
def recLater (a b : Rec) : Prop := b.date ≤ a.date

instance : DecidableRel recLater := fun a b =>
  inferInstanceAs (Decidable (b.date ≤ a.date))

instance : IsTotal Rec recLater :=
  ⟨fun a b => Int.le_total b.date a.date⟩

instance : IsTrans Rec recLater :=
  ⟨fun _ _ _ h h' => le_trans h' h⟩

/-- Values appearing in the dict returned by `last15_features`.
`PyVal.sqrtRat q` stands for the float `math.sqrt(q)`; every other
numeric value of the source is exactly representable. -/
inductive PyVal where
  | int (n : ℤ)
  | rat (q : ℚ)
  | sqrtRat (q : ℚ)
  | nan
deriving DecidableEq

/-- Real denotation of a `PyVal`; `nan` is denoted by the junk value 0
(no theorem below relies on the denotation of `nan`). -/
noncomputable def PyVal.toReal : PyVal → ℝ
  | .int n => (n : ℝ)
  | .rat q => (q : ℝ)
  | .sqrtRat q => Real.sqrt (q : ℝ)
  | .nan => 0

/-- Stat column of a list of records (`dfp[stat]`). -/
def statsOf (rows : List Rec) (stat : String) : List ℚ :=
  rows.map (fun r => r.stats stat)

/-- Mean of a list of rationals (`Series.mean`); junk value 0 on `[]`
(the source never takes a mean of an empty selection without guarding). -/
def qmean (l : List ℚ) : ℚ := l.sum / (l.length : ℚ)

/-- Median of a list of rationals (`Series.median`): the middle element
of the sorted values, or the average of the two middle elements. -/
def qmedian (l : List ℚ) : ℚ :=
  let s := List.insertionSort (· ≤ ·) l
  (s.getD ((l.length - 1) / 2) 0 + s.getD (l.length / 2) 0) / 2

/-- Sum of squared deviations from the mean, the numerator of
`Series.std(ddof=1)`. -/
def devsq (l : List ℚ) : ℚ :=
  (l.map (fun x => (x - qmean l) ^ 2)).sum

/-! ## Feature Engine: `last15_features` -/

/-- Row selection of `last15_features`: filter to the player, order by
date descending, take the first 15 (engine.py lines 6-7). -/
def sel15 (tbl : List Rec) (player : String) : List Rec :=
  (List.insertionSort recLater (tbl.filter (fun r => r.player == player))).take 15

/-- Embedding of `last15_features` (engine.py lines 5-16).  The returned
dict is an association list because the key set differs between the two
branches of the source. -/
def last15_features (tbl : List Rec) (player stat : String) : List (String × PyVal) :=
  let dfp := sel15 tbl player
  if dfp.isEmpty then
    [("count", PyVal.int 0), ("mean", PyVal.nan), ("median", PyVal.nan),
     ("std", PyVal.nan), ("over_rate", PyVal.nan)]
  else
    [("count", PyVal.int dfp.length),
     ("mean", PyVal.rat (qmean (statsOf dfp stat))),
     ("median", PyVal.rat (qmedian (statsOf dfp stat))),
     ("std",
       if 1 < dfp.length then
         PyVal.sqrtRat (devsq (statsOf dfp stat) / ((dfp.length : ℚ) - 1))
       else PyVal.rat 0)]

/-! ## Feature Engine: `head_to_head_over_rate` -/

/-- Result dict of `head_to_head_over_rate`; `none` models `np.nan`. -/
structure H2HOut where
  h2h_count : ℕ
  h2h_over_rate : Option ℚ
deriving DecidableEq

/-- Rows matching both the player and the opponent (engine.py line 19). -/
def h2hMatches (tbl : List Rec) (player opponent : String) : List Rec :=
  tbl.filter (fun r => r.player == player && r.opponent == opponent)

/-- Row selection of `head_to_head_over_rate`: matching rows, date
descending, first `window` (engine.py lines 19-20). -/
def h2hSel (tbl : List Rec) (player opponent : String) (window : ℕ) : List Rec :=
  (List.insertionSort recLater (h2hMatches tbl player opponent)).take window

/-- Embedding of `head_to_head_over_rate` (engine.py lines 18-24).
`(dfp[stat] > line).mean()` is the count of strict exceedances divided
by the number of selected rows. -/
def head_to_head_over_rate (tbl : List Rec) (player opponent : String)
    (line : ℚ) (stat : String) (window : ℕ) : H2HOut :=
  let dfp := h2hSel tbl player opponent window
  if dfp.isEmpty then ⟨0, none⟩
  else ⟨dfp.length,
        some ((dfp.countP (fun r => decide (line < r.stats stat)) : ℚ) / (dfp.length : ℚ))⟩

/-! ## Feature Engine: `map_mixture_expectation` -/

/-- Result of `map_mixture_expectation`.  `per_map` is the `results`
dict: one entry per considered map, in encounter order, holding the
probability and the (possibly missing) per-map mean. -/
structure MixOut where
  map_mixture_mu : Option ℚ
  per_map : List (String × ℚ × Option ℚ)
deriving DecidableEq

/-- Identifier keys of a map-pool row, skipped by the loop
(engine.py lines 32-33). -/
def isPoolMetaKey (k : String) : Bool := k == "match_id" || k == "team"

/-- Per-map mean of the player's stat: `m[stat].mean() if len(m) else
np.nan` (engine.py lines 40-41). -/
def mapMean (tbl : List Rec) (player map_name stat : String) : Option ℚ :=
  let m := tbl.filter (fun r => r.player == player && r.map_name == map_name)
  if m.isEmpty then none else some (qmean (statsOf m stat))

/-- Loop state of `map_mixture_expectation`: the `results` dict and the
accumulators `exp_val` and `total_p`. -/
structure MixAcc where
  results : List (String × ℚ × Option ℚ)
  exp_val : ℚ
  total_p : ℚ

/-- One iteration of the loop of `map_mixture_expectation`
(engine.py lines 31-45).  A map-pool entry whose value does not parse as
a number is modelled with `none` (the `float(p)` failure branch). -/
def mixStep (tbl : List Rec) (player stat : String) (acc : MixAcc)
    (e : String × Option ℚ) : MixAcc :=
  if isPoolMetaKey e.1 then acc
  else
    match e.2 with
    | none => acc
    | some p =>
      if p ≤ 0 then acc
      else
        let mu := mapMean tbl player e.1 stat
        match mu with
        | some m =>
          ⟨acc.results ++ [(e.1, p, some m)], acc.exp_val + p * m, acc.total_p + p⟩
        | none => ⟨acc.results ++ [(e.1, p, none)], acc.exp_val, acc.total_p⟩

/-- Embedding of `map_mixture_expectation` (engine.py lines 26-48).
Note that the source returns the raw accumulator `exp_val`, with no
division by `total_p`. -/
def map_mixture_expectation (tbl : List Rec) (player : String)
    (pool : List (String × Option ℚ)) (stat : String) : MixOut :=
  let acc := pool.foldl (mixStep tbl player stat) ⟨[], 0, 0⟩
  if acc.total_p = 0 then ⟨none, acc.results⟩ else ⟨some acc.exp_val, acc.results⟩

/-- Maps considered by the loop (entries of the `results` dict), written
directly as a filter of the pool row, for comparison with the fold. -/
def mixConsidered (tbl : List Rec) (player stat : String)
    (pool : List (String × Option ℚ)) : List (String × ℚ × Option ℚ) :=
  pool.filterMap (fun e =>
    if isPoolMetaKey e.1 then none
    else
      match e.2 with
      | none => none
      | some p =>
        if p ≤ 0 then none else some (e.1, p, mapMean tbl player e.1 stat))

/-- Contributing maps, in the words of the claim: considered maps on
which the player has at least one record, with their probability and
per-map mean. -/
def mixContrib (tbl : List Rec) (player stat : String)
    (pool : List (String × Option ℚ)) : List (String × ℚ × ℚ) :=
  pool.filterMap (fun e =>
    if isPoolMetaKey e.1 then none
    else
      match e.2 with
      | none => none
      | some p =>
        if p ≤ 0 then none
        else
          match mapMean tbl player e.1 stat with
          | none => none
          | some m => some (e.1, p, m))

/-- Sum of the probabilities of the contributing maps. -/
def mixPSum (tbl : List Rec) (player stat : String)
    (pool : List (String × Option ℚ)) : ℚ :=
  ((mixContrib tbl player stat pool).map (fun e => e.2.1)).sum

/-- Accumulated sum of probability times per-map mean over the
contributing maps. -/
def mixWSum (tbl : List Rec) (player stat : String)
    (pool : List (String × Option ℚ)) : ℚ :=
  ((mixContrib tbl player stat pool).map (fun e => e.2.1 * e.2.2)).sum

/-! ## Acquisition Reconciler: data model (`src/ingest/vlr.py`) -/

/-- Python truthiness of an optional string: `None` and the empty string
are falsy.  Used wherever the source writes `not x` or `x or y` on such
a field. -/
def falsyStr (o : Option String) : Bool := o.getD "" == ""

/-- Python `a or b` on optional string fields. -/
def pyOr (a b : Option String) : Option String := if falsyStr a then b else a

/-- Python `s.startswith("http")` (vlr.py lines 314, 326, 354). -/
def startsWithHttp (s : String) : Bool := s.data.take 4 == ['h', 't', 't', 'p']

/-- MatchMeta dict built by `api_fetch_match` / `_parse_match_header`:
the five keys `team_a`, `team_b`, `event`, `bo_format`, `date`. -/
structure Meta where
  team_a : Option String
  team_b : Option String
  event : Option String
  bo_format : Option String
  date : Option String
deriving DecidableEq

/-- One row of the maps DataFrame (canonical MapResult schema). -/
structure MapRow where
  match_id : Option String
  map_num : ℕ
  map_name : Option String
  winner : Option String
  score : Option String
  picked_by : Option String
  first_pick_order : Option ℕ
deriving DecidableEq

/-- One row of the player-maps DataFrame (canonical PlayerMapRecord
schema). -/
structure PMapRow where
  match_id : Option String
  map_num : ℕ
  date : Option String
  player : Option String
  team : Option String
  opponent : Option String
  map_name : Option String
  agent : Option String
  kills : Option Int
  deaths : Option Int
  assists : Option Int
  ACS : Option Int
  rounds_played : Option Int
deriving DecidableEq

/-- Result tuple `(meta, maps_df, player_maps_df, vetoes)` of
`api_fetch_match` / `scrape_match` / `parse_match`.  A veto entry
`{"note": s}` of the source is represented by its note string `s`. -/
structure ParseResult where
  meta : Meta
  maps : List MapRow
  pmaps : List PMapRow
  vetoes : List String
deriving DecidableEq

/-! ## Acquisition Reconciler: merge step of `parse_match` -/

/-- Field-by-field fill of the API meta from the scraper meta:
`for k, v in meta_s.items(): if not meta.get(k): meta[k] = v`
(vlr.py lines 320-321).  Note the source tests Python truthiness, not
only `None`. -/
def fillMeta (m s : Meta) : Meta :=
  { team_a := if falsyStr m.team_a then s.team_a else m.team_a,
    team_b := if falsyStr m.team_b then s.team_b else m.team_b,
    event := if falsyStr m.event then s.event else m.event,
    bo_format := if falsyStr m.bo_format then s.bo_format else m.bo_format,
    date := if falsyStr m.date then s.date else m.date }

/-- Merge step of `parse_match` (vlr.py lines 311-323), given the
successful primary (API) result and the scraper result that the source
would obtain for the same input.  Outside the merge condition the
primary result is returned unchanged. -/
def parse_match_merged (input : String) (primary fallback : ParseResult) : ParseResult :=
  if primary.maps.isEmpty || primary.pmaps.isEmpty then
    if startsWithHttp input then
      { meta := fillMeta primary.meta fallback.meta,
        maps := if primary.maps.isEmpty then fallback.maps else primary.maps,
        pmaps := if primary.pmaps.isEmpty then fallback.pmaps else primary.pmaps,
        vetoes := if primary.vetoes.isEmpty then fallback.vetoes else primary.vetoes }
    else primary
  else primary

/-- Claim-side predicate: the merged field `m` is taken from the
fallback only where the primary `p` left it null, and kept otherwise.
Here "left it null" is read as the source reads it: `none` or the empty
string. -/
def filledOnlyWhereFalsy (p f m : Option String) : Prop :=
  ((p ≠ none ∧ p ≠ some "") → m = p) ∧ ((p = none ∨ p = some "") → m = f)

/-! ## Acquisition Reconciler: scraper-path map rows -/

/-- Map-row construction of `_parse_maps_and_players`
(vlr.py lines 215-221 and 280-283), given the extracted pieces: the
score pattern is the `(s_a, s_b)` pair of the first integer-dash-integer
match in the block's text, or `none` when the pattern is absent.
`winner = team_a if s_a > s_b else team_b`. -/
def scraperMapRow (team_a team_b : String) (map_num : ℕ)
    (map_name picked_by : Option String) (scorePat : Option (ℕ × ℕ)) : MapRow :=
  match scorePat with
  | none =>
    { match_id := none, map_num := map_num, map_name := map_name,
      winner := none, score := none, picked_by := picked_by, first_pick_order := none }
  | some (s_a, s_b) =>
    { match_id := none, map_num := map_num, map_name := map_name,
      winner := some (if s_b < s_a then team_a else team_b),
      score := some (toString s_a ++ "-" ++ toString s_b),
      picked_by := picked_by, first_pick_order := none }

/-! ## Acquisition Reconciler: API-path map rows -/

/-- One element of the `maps` array of the API payload; each field is
the JSON value under that key (absent keys are `none`). -/
structure ApiMapObj where
  map : Option String
  name : Option String
  winner : Option String
  score : Option String
  picked_by : Option String
  pick : Option String
deriving DecidableEq

/-- API payload fields read by `api_fetch_match` for team identity and
map rows (vlr.py lines 85-86, 110).  The meta fields not bearing on the
claims under study (event, format, date, vetoes, per-map player stats)
are elided. -/
structure ApiPayload where
  team1 : Option String
  team_a : Option String
  teamA : Option String
  team2 : Option String
  team_b : Option String
  teamB : Option String
  maps : List ApiMapObj
  map_list : List ApiMapObj
deriving DecidableEq

/-- `meta_raw.get("team1") or meta_raw.get("team_a") or
meta_raw.get("teamA")` (vlr.py line 85). -/
def apiTeamA (p : ApiPayload) : Option String := pyOr (pyOr p.team1 p.team_a) p.teamA

/-- `meta_raw.get("team2") or meta_raw.get("team_b") or
meta_raw.get("teamB")` (vlr.py line 86). -/
def apiTeamB (p : ApiPayload) : Option String := pyOr (pyOr p.team2 p.team_b) p.teamB

/-- Sanity check of `api_fetch_match` (vlr.py line 158): both teams must
be truthy, otherwise the function raises and the scraper takes over. -/
def apiTeamsOk (p : ApiPayload) : Bool :=
  !falsyStr (apiTeamA p) && !falsyStr (apiTeamB p)

/-- Python `a or b` on lists (empty list is falsy). -/
def listOrMaps (a b : List ApiMapObj) : List ApiMapObj := if a.isEmpty then b else a

/-- `meta_raw.get("maps") or meta_raw.get("map_list") or []`
(vlr.py line 110). -/
def apiMapsRaw (p : ApiPayload) : List ApiMapObj := listOrMaps p.maps p.map_list

/-- One map row built by the API path (vlr.py lines 114-122): the
winner is copied verbatim from the payload. -/
def apiMapRow (match_id : String) (i : ℕ) (m : ApiMapObj) : MapRow :=
  { match_id := some match_id, map_num := i,
    map_name := pyOr m.map m.name,
    winner := m.winner, score := m.score,
    picked_by := pyOr m.picked_by m.pick,
    first_pick_order := none }

/-- All map rows built by the API path, 1-based enumeration
(vlr.py lines 111-122). -/
def apiMapRows (match_id : String) (p : ApiPayload) : List MapRow :=
  ((apiMapsRaw p).enumFrom 1).map (fun e => apiMapRow match_id e.1 e.2)

/-! ## Acquisition Reconciler: `_extract_match_id_from_url` and
`scrape_matches` -/

/-- Scan for the first slash followed by at least one digit and return
the maximal digit run after it (the regex `/(\d+)` of vlr.py line 52). -/
def findIdDigits : List Char → Option (List Char)
  | [] => none
  | c :: rest =>
    if c == '/' then
      let ds := rest.takeWhile Char.isDigit
      if ds.isEmpty then findIdDigits rest else some ds
    else findIdDigits rest

/-- Embedding of `_extract_match_id_from_url` (vlr.py lines 51-53). -/
def extract_match_id (s : String) : String :=
  match findIdDigits s.data with
  | some ds => String.mk ds
  | none => s.trim

/-- Column schema of the matches DataFrame, in the key order of the
dict literal of vlr.py lines 346-355. -/
def metaCols : List String :=
  ["match_id", "event", "date", "bo_format", "team_a", "team_b", "vetoes_json", "src_url"]

/-- Canonical column schema of the maps DataFrame (vlr.py line 361). -/
def mapCols : List String :=
  ["match_id", "map_num", "map_name", "winner", "score", "picked_by", "first_pick_order"]

/-- Canonical column schema of the player-maps DataFrame
(vlr.py line 364). -/
def pmapCols : List String :=
  ["match_id", "map_num", "date", "player", "team", "opponent", "map_name", "agent",
   "kills", "deaths", "assists", "ACS", "rounds_played"]

/-- One row of the matches DataFrame.  `vetoes_json` holds the veto
notes serialized by `json.dumps` in the source; the serialization is
modelled by the note list itself. -/
structure MetaRow where
  match_id : String
  event : Option String
  date : Option String
  bo_format : Option String
  team_a : Option String
  team_b : Option String
  vetoes_json : List String
  src_url : String
deriving DecidableEq

/-- A DataFrame: a column schema plus typed rows.  `pd.DataFrame([])`
is `⟨[], []⟩` (no columns at all), while
`pd.DataFrame(columns=cs)` is `⟨cs, []⟩`. -/
structure DF (ρ : Type) where
  cols : List String
  rows : List ρ
deriving DecidableEq

/-- The matches-DataFrame row built for one resolved locator
(vlr.py lines 345-355). -/
def metaRowOf (u : String) (r : ParseResult) : MetaRow :=
  let mid := extract_match_id u
  { match_id := mid, event := r.meta.event, date := r.meta.date,
    bo_format := r.meta.bo_format, team_a := r.meta.team_a, team_b := r.meta.team_b,
    vetoes_json := r.vetoes,
    src_url := if startsWithHttp u then u else "https://www.vlr.gg/" ++ mid ++ "/match" }

/-- Embedding of `scrape_matches` (vlr.py lines 333-366).  The per-item
resolution `parse_match` — which may raise — is abstracted as the
`resolve` argument returning `Except`; an exception is caught, logged
and the item skipped.  A match's maps (player-maps) are appended only
when non-empty; the aggregated DataFrames get the canonical schema from
`pd.concat` or from the explicit `columns=` lists, while an empty list
of meta rows yields `pd.DataFrame([])`, a DataFrame with no columns.
`scrapeStep` is the body of the `for u in match_urls` loop
(vlr.py lines 339-357). -/
def scrapeStep (resolve : String → Except Unit ParseResult)
    (acc : List MetaRow × List (List MapRow) × List (List PMapRow)) (u : String) :
    List MetaRow × List (List MapRow) × List (List PMapRow) :=
  match resolve u with
  | Except.error _ => acc
  | Except.ok r =>
    (acc.1 ++ [metaRowOf u r],
     if r.maps.isEmpty then acc.2.1 else acc.2.1 ++ [r.maps],
     if r.pmaps.isEmpty then acc.2.2 else acc.2.2 ++ [r.pmaps])

/-- Batch aggregation of `scrape_matches`: fold the loop body over the
locator list and assemble the three DataFrames (vlr.py lines 338, 359-366). -/
def scrape_matches (resolve : String → Except Unit ParseResult) (urls : List String) :
    DF MetaRow × DF MapRow × DF PMapRow :=
  let a := urls.foldl (scrapeStep resolve) ([], [], [])
  (if a.1.isEmpty then ⟨[], []⟩ else ⟨metaCols, a.1⟩,
   if a.2.1.isEmpty then ⟨mapCols, []⟩ else ⟨mapCols, a.2.1.flatten⟩,
   if a.2.2.isEmpty then ⟨pmapCols, []⟩ else ⟨pmapCols, a.2.2.flatten⟩)

/-! ## Offer Normalizer (`src/ingest/prizepicks.py`) -/

/-- One normalized offer row (dict literal of prizepicks.py
lines 133-143).  `offer_time` is `none` when the timestamp was absent or
unparseable; otherwise it is modelled by a rational time coordinate
(the source only ever compares offer times). -/
structure Offer where
  offer_id : String
  player : String
  stat_type : String
  line : ℚ
  team : Option String
  opponent : Option String
  series_id : Option String
  map_scope : String
  offer_time : Option ℚ
deriving DecidableEq

/-- Keep-first de-duplication by `offer_id`
(`df.drop_duplicates(subset=["offer_id"])`, prizepicks.py line 165).
`seen` is the set of ids already retained. -/
def dropDupOffers : List Offer → List String → List Offer
  | [], _ => []
  | o :: rest, seen =>
    if o.offer_id ∈ seen then dropDupOffers rest seen
    else o :: dropDupOffers rest (o.offer_id :: seen)

/-- Sort key comparison of `sort_values("offer_time",
na_position="last", ascending=False)`: a row comes no later than
another when its time is no smaller, and null times come last. -/
def offerBeforeB (a b : Offer) : Bool :=
  match a.offer_time, b.offer_time with
  | some x, some y => y ≤ x
  | _, none => true
  | none, some _ => false

/-- Propositional form of `offerBeforeB`. -/
def offerBefore (a b : Offer) : Prop := offerBeforeB a b = true

instance : DecidableRel offerBefore := fun a b =>
  inferInstanceAs (Decidable (offerBeforeB a b = true))

instance : IsTotal Offer offerBefore := by
  constructor
  intro a b
  unfold offerBefore offerBeforeB
  rcases a.offer_time with _ | x <;> rcases b.offer_time with _ | y <;> simp
  exact le_total y x

instance : IsTrans Offer offerBefore := by
  constructor
  intro a b c hab hbc
  unfold offerBefore offerBeforeB at *
  rcases ha : a.offer_time with _ | x <;> rcases hb : b.offer_time with _ | y <;>
    rcases hc : c.offer_time with _ | z <;> simp_all
  exact le_trans hbc hab

/-- Embedding of the normalization tail of `load_current_offers_valorant`
(prizepicks.py lines 163-166): the network fetch and row extraction are
abstracted as the `fetched` argument (the DataFrame produced by
the row-extraction helper); a non-empty frame is de-duplicated by
`offer_id` (keep first) and sorted by `offer_time` descending, nulls
last. -/
def load_current_offers_valorant (fetched : List Offer) : List Offer :=
  if fetched.isEmpty then fetched
  else List.insertionSort offerBefore (dropDupOffers fetched [])

/-! ## Concrete fixtures for witnesses and counterexamples -/

/-- A record of player P1 against Q1 on MapA: every stat column is 20. -/
def recA : Rec :=
  { player := "P1", opponent := "Q1", map_name := "MapA", date := 0, stats := fun _ => 20 }

/-- A record of player P1 against Q1 on MapA, date 1: every stat
column is 10. -/
def recB : Rec :=
  { player := "P1", opponent := "Q1", map_name := "MapA", date := 1, stats := fun _ => 10 }

/-- A record of player P1 against Q1 on MapB, date 2: every stat
column is 30. -/
def recC : Rec :=
  { player := "P1", opponent := "Q1", map_name := "MapB", date := 2, stats := fun _ => 30 }

/-- The map-pool row of the spec's round-trip example:
MapA with probability 0.6, MapB with probability 0.4. -/
def poolAB : List (String × Option ℚ) :=
  [("MapA", some (6 / 10)), ("MapB", some (4 / 10))]

/-- A map row fixture (used to make fallback collections non-empty). -/
def mapRow1 : MapRow :=
  { match_id := none, map_num := 1, map_name := some "Ascent",
    winner := some "A", score := some "13-7", picked_by := none,
    first_pick_order := none }

/-- A player-map row fixture (used to make primary collections
non-empty). -/
def pmapRow1 : PMapRow :=
  { match_id := some "101", map_num := 1, date := none, player := some "P1",
    team := some "A", opponent := some "B", map_name := some "Ascent",
    agent := some "Jett", kills := some 20, deaths := some 10,
    assists := some 5, ACS := some 250, rounds_played := some 20 }

/-- A successful parse result fixture with non-empty maps and
player-maps. -/
def parseResult1 : ParseResult :=
  { meta := { team_a := some "A", team_b := some "B", event := some "Ev",
              bo_format := some "Bo3", date := some "2024-01-01" },
    maps := [mapRow1], pmaps := [pmapRow1], vetoes := ["A ban Bind"] }

/-- An API payload whose maps array carries a winner string that is
neither of the two teams. -/
def payloadC7 : ApiPayload :=
  { team1 := some "A", team_a := none, teamA := none,
    team2 := some "B", team_b := none, teamB := none,
    maps := [{ map := some "Ascent", name := none, winner := some "C",
               score := some "13-7", picked_by := none, pick := none }],
    map_list := [] }

/-- Offer fixture: id "a", time 1. -/
def offerA1 : Offer :=
  { offer_id := "a", player := "P1", stat_type := "kills", line := 20,
    team := none, opponent := none, series_id := none,
    map_scope := "per-series", offer_time := some 1 }

/-- Offer fixture: id "a" again (duplicate), time 5. -/
def offerA2 : Offer :=
  { offer_id := "a", player := "P1", stat_type := "kills", line := 21,
    team := none, opponent := none, series_id := none,
    map_scope := "per-series", offer_time := some 5 }

/-- Offer fixture: id "b", null time. -/
def offerB : Offer :=
  { offer_id := "b", player := "P2", stat_type := "kills", line := 15,
    team := none, opponent := none, series_id := none,
    map_scope := "per-series", offer_time := none }

/-- A primary (API) result with empty maps, non-empty player-maps, and
an event field holding the empty string (a non-null Python value that
is nonetheless falsy). -/
def primaryC2 : ParseResult :=
  { meta := { team_a := some "A", team_b := some "B", event := some "",
              bo_format := none, date := none },
    maps := [], pmaps := [pmapRow1], vetoes := [] }

/-- A fallback (scraper) result with non-empty maps and a non-empty
event field. -/
def fallbackC2 : ParseResult :=
  { meta := { team_a := some "A", team_b := some "B", event := some "Ev",
              bo_format := some "Bo3", date := some "2024-01-01" },
    maps := [mapRow1], pmaps := [], vetoes := ["A ban Bind"] }

/-- A resolver fixture: locator "u1" resolves to `parseResult1`, any
other locator raises. -/
def resolver1 (u : String) : Except Unit ParseResult :=
  if u == "u1" then Except.ok parseResult1 else Except.error ()

/-- A resolver fixture that raises on every locator. -/
def resolverFail (_ : String) : Except Unit ParseResult := Except.error ()

/-! ## Helper lemmas -/

/-- If a filter with a weaker predicate selects nothing, so does a
filter with a stronger predicate. -/
theorem filter_nil_mono {α : Type} {l : List α} {f g : α → Bool}
    (h : ∀ a, g a = true → f a = true) (hf : l.filter f = []) : l.filter g = [] := by
  rw [List.filter_eq_nil_iff] at hf ⊢
  intro a ha hga
  exact hf a ha (h a hga)

/-- When the player filter selects no rows, every per-map mean is
missing. -/
theorem mapMean_eq_none_of_no_player_rows {tbl : List Rec} {player : String}
    (h : tbl.filter (fun r => r.player == player) = [])
    (mn stat : String) : mapMean tbl player mn stat = none := by
  unfold mapMean
  have hnil : tbl.filter (fun r => r.player == player && r.map_name == mn) = [] := by
    refine filter_nil_mono (fun a ha => ?_) h
    exact ((Bool.and_eq_true _ _).mp ha).1
  simp [hnil]

/-- Unrolled specification of the accumulation loop of
`map_mixture_expectation`: starting from any accumulator, the fold
appends the considered maps to `results`, adds the contributing
weighted sum to `exp_val` and adds the contributing probability mass to
`total_p`. -/
theorem mix_foldl_spec (tbl : List Rec) (player stat : String)
    (pool : List (String × Option ℚ)) : ∀ acc : MixAcc,
    (pool.foldl (mixStep tbl player stat) acc).results
        = acc.results ++ mixConsidered tbl player stat pool
    ∧ (pool.foldl (mixStep tbl player stat) acc).exp_val
        = acc.exp_val + mixWSum tbl player stat pool
    ∧ (pool.foldl (mixStep tbl player stat) acc).total_p
        = acc.total_p + mixPSum tbl player stat pool := by
  induction pool with
  | nil =>
    intro acc
    simp [mixConsidered, mixWSum, mixPSum, mixContrib]
  | cons e pool ih =>
    intro acc
    simp only [List.foldl_cons]
    by_cases hk : isPoolMetaKey e.1
    · have hstep : mixStep tbl player stat acc e = acc := by
        simp [mixStep, hk]
      rw [hstep]
      have hc : mixConsidered tbl player stat (e :: pool)
          = mixConsidered tbl player stat pool := by
        simp [mixConsidered, List.filterMap_cons, hk]
      have hw : mixContrib tbl player stat (e :: pool)
          = mixContrib tbl player stat pool := by
        simp [mixContrib, List.filterMap_cons, hk]
      rw [hc]
      simpa [mixWSum, mixPSum, hw] using ih acc
    · cases he : e.2 with
      | none =>
        have hstep : mixStep tbl player stat acc e = acc := by
          simp [mixStep, hk, he]
        rw [hstep]
        have hc : mixConsidered tbl player stat (e :: pool)
            = mixConsidered tbl player stat pool := by
          simp [mixConsidered, List.filterMap_cons, hk, he]
        have hw : mixContrib tbl player stat (e :: pool)
            = mixContrib tbl player stat pool := by
          simp [mixContrib, List.filterMap_cons, hk, he]
        rw [hc]
        simpa [mixWSum, mixPSum, hw] using ih acc
      | some p =>
        by_cases hp : p ≤ 0
        · have hstep : mixStep tbl player stat acc e = acc := by
            simp [mixStep, hk, he, hp]
          rw [hstep]
          have hc : mixConsidered tbl player stat (e :: pool)
              = mixConsidered tbl player stat pool := by
            simp [mixConsidered, List.filterMap_cons, hk, he, hp]
          have hw : mixContrib tbl player stat (e :: pool)
              = mixContrib tbl player stat pool := by
            simp [mixContrib, List.filterMap_cons, hk, he, hp]
          rw [hc]
          simpa [mixWSum, mixPSum, hw] using ih acc
        · cases hmu : mapMean tbl player e.1 stat with
          | some m =>
            have hstep : mixStep tbl player stat acc e
                = ⟨acc.results ++ [(e.1, p, some m)], acc.exp_val + p * m,
                   acc.total_p + p⟩ := by
              simp [mixStep, hk, he, hp, hmu]
            rw [hstep]
            have hc : mixConsidered tbl player stat (e :: pool)
                = (e.1, p, some m) :: mixConsidered tbl player stat pool := by
              simp [mixConsidered, List.filterMap_cons, hk, he, hp, hmu]
            have hw : mixContrib tbl player stat (e :: pool)
                = (e.1, p, m) :: mixContrib tbl player stat pool := by
              simp [mixContrib, List.filterMap_cons, hk, he, hp, hmu]
            obtain ⟨ih1, ih2, ih3⟩ :=
              ih ⟨acc.results ++ [(e.1, p, some m)], acc.exp_val + p * m, acc.total_p + p⟩
            refine ⟨?_, ?_, ?_⟩
            · rw [ih1, hc]
              simp
            · rw [ih2]
              simp [mixWSum, hw]
              ring
            · rw [ih3]
              simp [mixPSum, hw]
              ring
          | none =>
            have hstep : mixStep tbl player stat acc e
                = ⟨acc.results ++ [(e.1, p, none)], acc.exp_val, acc.total_p⟩ := by
              simp [mixStep, hk, he, hp, hmu]
            rw [hstep]
            have hc : mixConsidered tbl player stat (e :: pool)
                = (e.1, p, none) :: mixConsidered tbl player stat pool := by
              simp [mixConsidered, List.filterMap_cons, hk, he, hp, hmu]
            have hw : mixContrib tbl player stat (e :: pool)
                = mixContrib tbl player stat pool := by
              simp [mixContrib, List.filterMap_cons, hk, he, hp, hmu]
            obtain ⟨ih1, ih2, ih3⟩ :=
              ih ⟨acc.results ++ [(e.1, p, none)], acc.exp_val, acc.total_p⟩
            refine ⟨?_, ?_, ?_⟩
            · rw [ih1, hc]
              simp
            · rw [ih2]
              simp [mixWSum, hw]
            · rw [ih3]
              simp [mixPSum, hw]

/-- Every contributing map has a strictly positive probability. -/
theorem mixContrib_pos (tbl : List Rec) (player stat : String)
    (pool : List (String × Option ℚ)) :
    ∀ x ∈ mixContrib tbl player stat pool, 0 < x.2.1 := by
  intro x hx
  unfold mixContrib at hx
  obtain ⟨e, _, hfe⟩ := List.mem_filterMap.mp hx
  by_cases hk : isPoolMetaKey e.1
  · simp [hk] at hfe
  · cases he : e.2 with
    | none => simp [hk, he] at hfe
    | some p =>
      by_cases hp : p ≤ 0
      · simp [hk, he, hp] at hfe
      · cases hmu : mapMean tbl player e.1 stat with
        | none => simp [hk, he, hp, hmu] at hfe
        | some m =>
          simp [hk, he, hp, hmu] at hfe
          rw [← hfe]
          exact lt_of_not_le hp

/-- The contributing probability mass vanishes exactly when no map
contributes. -/
theorem mixPSum_eq_zero_iff (tbl : List Rec) (player stat : String)
    (pool : List (String × Option ℚ)) :
    mixPSum tbl player stat pool = 0 ↔ mixContrib tbl player stat pool = [] := by
  constructor
  · intro h
    by_contra hne
    have hpos : 0 < mixPSum tbl player stat pool := by
      refine List.sum_pos _ (fun x hx => ?_) ?_
      · obtain ⟨y, hy, rfl⟩ := List.mem_map.mp hx
        exact mixContrib_pos tbl player stat pool y hy
      · simpa using hne
    exact absurd h (ne_of_gt hpos)
  · intro h
    simp [mixPSum, h]

/-- Elements of a sorted list taken from the front dominate the
remainder. -/
theorem sorted_take_drop {α : Type} {r : α → α → Prop} {l : List α}
    (h : List.Sorted r l) (n : ℕ) :
    ∀ x ∈ l.take n, ∀ y ∈ l.drop n, r x y := by
  have h' : List.Pairwise r (l.take n ++ l.drop n) := by
    rw [List.take_append_drop]
    exact h
  exact (List.pairwise_append.mp h').2.2

/-- Unrolled specification of the batch loop of `scrape_matches`. -/
theorem scrape_foldl_spec (resolve : String → Except Unit ParseResult)
    (urls : List String) : ∀ acc,
    urls.foldl (scrapeStep resolve) acc
      = (acc.1 ++ urls.filterMap (fun u =>
            match resolve u with
            | Except.ok r => some (metaRowOf u r)
            | Except.error _ => none),
         acc.2.1 ++ urls.filterMap (fun u =>
            match resolve u with
            | Except.ok r => if r.maps.isEmpty then none else some r.maps
            | Except.error _ => none),
         acc.2.2 ++ urls.filterMap (fun u =>
            match resolve u with
            | Except.ok r => if r.pmaps.isEmpty then none else some r.pmaps
            | Except.error _ => none)) := by
  induction urls with
  | nil =>
    intro acc
    simp
  | cons u urls ih =>
    intro acc
    simp only [List.foldl_cons, List.filterMap_cons]
    cases hr : resolve u with
    | error e =>
      simp only [scrapeStep, hr]
      rw [ih acc]
    | ok r =>
      simp only [scrapeStep, hr]
      by_cases hm : r.maps.isEmpty <;> by_cases hp : r.pmaps.isEmpty <;>
        simp [hm, hp, ih, List.append_assoc]

/-- Dropping the empty chunks before flattening changes nothing. -/
theorem flatten_chunks {α : Type} (resolve : String → Except Unit ParseResult)
    (proj : ParseResult → List α) (urls : List String) :
    (urls.filterMap (fun u =>
        match resolve u with
        | Except.ok r => if (proj r).isEmpty then none else some (proj r)
        | Except.error _ => none)).flatten
    = (urls.filterMap (fun u =>
        match resolve u with
        | Except.ok r => some (proj r)
        | Except.error _ => none)).flatten := by
  induction urls with
  | nil => rfl
  | cons u urls ih =>
    simp only [List.filterMap_cons]
    cases hr : resolve u with
    | error e => simpa using ih
    | ok r =>
      by_cases hpe : (proj r).isEmpty
      · have hnil : proj r = [] := List.isEmpty_iff.mp hpe
        simp [hpe, hnil, ih]
      · simp [hpe, ih]

/-- Specification of the keep-first de-duplication: every retained
offer has an id outside `seen` and is the first offer of the input with
its id; the retained ids are pairwise distinct; and every input offer
whose id is not in `seen` has a representative in the output. -/
theorem dropDupOffers_spec : ∀ (l : List Offer) (seen : List String),
    (∀ o ∈ dropDupOffers l seen,
        o.offer_id ∉ seen
        ∧ List.find? (fun x => x.offer_id == o.offer_id) l = some o)
    ∧ ((dropDupOffers l seen).map Offer.offer_id).Nodup
    ∧ (∀ o ∈ l, o.offer_id ∈ seen
        ∨ ∃ o2 ∈ dropDupOffers l seen, o2.offer_id = o.offer_id) := by
  intro l
  induction l with
  | nil =>
    intro seen
    refine ⟨fun o ho => absurd ho (by simp [dropDupOffers]), ?_, fun o ho => absurd ho (by simp)⟩
    simp [dropDupOffers]
  | cons a rest ih =>
    intro seen
    by_cases hseen : a.offer_id ∈ seen
    · have hd : dropDupOffers (a :: rest) seen = dropDupOffers rest seen := by
        simp [dropDupOffers, hseen]
      obtain ⟨ih1, ih2, ih3⟩ := ih seen
      refine ⟨?_, by rwa [hd], ?_⟩
      · intro o ho
        rw [hd] at ho
        obtain ⟨hno, hfind⟩ := ih1 o ho
        have hne : (a.offer_id == o.offer_id) = false := by
          simp only [beq_eq_false_iff_ne, ne_eq]
          intro hcontra
          exact hno (hcontra ▸ hseen)
        refine ⟨hno, ?_⟩
        rw [List.find?_cons_of_neg _ (by simp [hne]), hfind]
      · intro o ho
        rcases List.mem_cons.mp ho with rfl | ho'
        · exact Or.inl hseen
        · rcases ih3 o ho' with h | ⟨o2, h2, h3⟩
          · exact Or.inl h
          · exact Or.inr ⟨o2, by rwa [hd], h3⟩
    · have hd : dropDupOffers (a :: rest) seen
          = a :: dropDupOffers rest (a.offer_id :: seen) := by
        simp [dropDupOffers, hseen]
      obtain ⟨ih1, ih2, ih3⟩ := ih (a.offer_id :: seen)
      have htail_ne : ∀ o ∈ dropDupOffers rest (a.offer_id :: seen),
          o.offer_id ≠ a.offer_id ∧ o.offer_id ∉ seen := by
        intro o ho
        have := (ih1 o ho).1
        simp only [List.mem_cons, not_or] at this
        exact this
      refine ⟨?_, ?_, ?_⟩
      · intro o ho
        rw [hd] at ho
        rcases List.mem_cons.mp ho with rfl | ho'
        · refine ⟨hseen, ?_⟩
          rw [List.find?_cons_of_pos _ (by simp)]
        · obtain ⟨hne, hns⟩ := htail_ne o ho'
          refine ⟨hns, ?_⟩
          have hfind := (ih1 o ho').2
          have hbeq : (a.offer_id == o.offer_id) = false := by
            simp only [beq_eq_false_iff_ne, ne_eq]
            exact fun hcontra => hne hcontra.symm
          rw [List.find?_cons_of_neg _ (by simp [hbeq]), hfind]
      · rw [hd]
        simp only [List.map_cons, List.nodup_cons]
        refine ⟨?_, ih2⟩
        intro hmem
        obtain ⟨o, ho, hoid⟩ := List.mem_map.mp hmem
        exact (htail_ne o ho).1 hoid
      · intro o ho
        rcases List.mem_cons.mp ho with rfl | ho'
        · refine Or.inr ⟨o, ?_, rfl⟩
          rw [hd]
          exact List.mem_cons_self _ _
        · rcases ih3 o ho' with h | ⟨o2, h2, h3⟩
          · rcases List.mem_cons.mp h with heq | hs
            · refine Or.inr ⟨a, ?_, heq.symm⟩
              rw [hd]
              exact List.mem_cons_self _ _
            · exact Or.inl hs
          · refine Or.inr ⟨o2, ?_, h3⟩
            rw [hd]
            exact List.mem_cons_of_mem _ h2

/-! ## Claim C1 -/

/-- Claim C1, counterexample.  The claim states that
`map_mixture_expectation` divides the accumulated weighted sum by the
sum of the probabilities actually used, so that the spec's round-trip
example (pool row MapA ↦ 0.6, MapB ↦ 0.4; player mean 20 on MapA, no
records on MapB) returns exactly 20.  The source never divides: on that
exact example it returns 0.6 × 20 = 12, not 20. -/
theorem C1_counterexample :
    (map_mixture_expectation [recA] "P1" poolAB "kills").map_mixture_mu = some 12
    ∧ (12 : ℚ) ≠ 20 := by
  constructor
  · simp [map_mixture_expectation, poolAB, mixStep, mapMean, isPoolMetaKey,
      qmean, statsOf, recA]
    norm_num
  · norm_num

/-- Claim C1, amended: for every records table, player, map-pool row
and stat, the returned mixture expectation is the accumulated sum of
probability times per-map mean over the contributing maps, with NO
division by the sum of the probabilities used (hence 12.0, not 20.0, on
the spec's example), and the missing sentinel is returned when no map
contributes; the per-map breakdown lists every considered map. -/
theorem C1_mixture_raw_weighted_sum (tbl : List Rec) (player stat : String)
    (pool : List (String × Option ℚ)) :
    (map_mixture_expectation tbl player pool stat).map_mixture_mu
      = (if mixContrib tbl player stat pool = [] then none
         else some (mixWSum tbl player stat pool))
    ∧ (map_mixture_expectation tbl player pool stat).per_map
      = mixConsidered tbl player stat pool := by
  obtain ⟨h1, h2, h3⟩ := mix_foldl_spec tbl player stat pool ⟨[], 0, 0⟩
  simp only [map_mixture_expectation]
  constructor
  · by_cases hc : mixContrib tbl player stat pool = []
    · have h0 : (pool.foldl (mixStep tbl player stat) ⟨[], 0, 0⟩).total_p = 0 := by
        rw [h3, (mixPSum_eq_zero_iff tbl player stat pool).mpr hc]
        ring
      rw [if_pos h0, if_pos hc]
    · have hne : (pool.foldl (mixStep tbl player stat) ⟨[], 0, 0⟩).total_p ≠ 0 := by
        rw [h3]
        intro h0
        rw [zero_add] at h0
        exact hc ((mixPSum_eq_zero_iff tbl player stat pool).mp h0)
      rw [if_neg hne, if_neg hc, h2, zero_add]
  · by_cases h0 : (pool.foldl (mixStep tbl player stat) ⟨[], 0, 0⟩).total_p = 0 <;>
      simp [h0, h1]

/-! ## Claim C3 -/

/-- Claim C3: when no row matches both the given player and opponent,
`head_to_head_over_rate` returns count 0 and the missing sentinel
(never 0) for the over-rate; when matching rows exist it returns the
number of rows used (the most recent rows by date, at most `window` of
them) and the fraction of those rows whose stat value strictly exceeds
the line. -/
theorem C3_head_to_head (tbl : List Rec) (player opponent : String)
    (line : ℚ) (stat : String) (window : ℕ) :
    ((h2hMatches tbl player opponent).isEmpty = true →
      head_to_head_over_rate tbl player opponent line stat window = ⟨0, none⟩
      ∧ (head_to_head_over_rate tbl player opponent line stat window).h2h_over_rate
          ≠ some 0)
    ∧ ((h2hMatches tbl player opponent).isEmpty = false →
      (head_to_head_over_rate tbl player opponent line stat window).h2h_count
          = min window (h2hMatches tbl player opponent).length
      ∧ ((h2hSel tbl player opponent window).isEmpty = false →
          (head_to_head_over_rate tbl player opponent line stat window).h2h_over_rate
            = some (((h2hSel tbl player opponent window).countP
                  (fun r => decide (line < r.stats stat)) : ℚ)
                / ((h2hSel tbl player opponent window).length : ℚ)))
      ∧ ∀ x ∈ h2hSel tbl player opponent window,
          ∀ y ∈ (List.insertionSort recLater (h2hMatches tbl player opponent)).drop window,
            y.date ≤ x.date) := by
  constructor
  · intro hm
    have hnil : h2hMatches tbl player opponent = [] := List.isEmpty_iff.mp hm
    have hsel : h2hSel tbl player opponent window = [] := by
      simp [h2hSel, hnil]
    constructor
    · simp [head_to_head_over_rate, hsel]
    · simp [head_to_head_over_rate, hsel]
  · intro _
    have hcount : (head_to_head_over_rate tbl player opponent line stat window).h2h_count
        = (h2hSel tbl player opponent window).length := by
      unfold head_to_head_over_rate
      by_cases hsel : (h2hSel tbl player opponent window).isEmpty
      · have : h2hSel tbl player opponent window = [] := List.isEmpty_iff.mp hsel
        simp [hsel, this]
      · simp [hsel]
    refine ⟨?_, ?_, ?_⟩
    · rw [hcount]
      simp [h2hSel, List.length_take, List.length_insertionSort]
    · intro hsel
      unfold head_to_head_over_rate
      simp [hsel]
    · intro x hx y hy
      exact sorted_take_drop
        (List.sorted_insertionSort recLater (h2hMatches tbl player opponent))
        window x hx y hy

/-- Claim C3, witness: the empty-input arm at an empty table, and the
populated arm on a two-row table with window 1 (the selected row is the
most recent one). -/
theorem C3_head_to_head_witness :
    (head_to_head_over_rate [] "P1" "Q1" 20 "kills" 10 = ⟨0, none⟩
      ∧ (head_to_head_over_rate [] "P1" "Q1" 20 "kills" 10).h2h_over_rate ≠ some 0)
    ∧ ((head_to_head_over_rate [recB, recC] "P1" "Q1" 20 "kills" 1).h2h_count
          = min 1 (h2hMatches [recB, recC] "P1" "Q1").length
      ∧ ((h2hSel [recB, recC] "P1" "Q1" 1).isEmpty = false →
          (head_to_head_over_rate [recB, recC] "P1" "Q1" 20 "kills" 1).h2h_over_rate
            = some (((h2hSel [recB, recC] "P1" "Q1" 1).countP
                  (fun r => decide ((20:ℚ) < r.stats "kills")) : ℚ)
                / ((h2hSel [recB, recC] "P1" "Q1" 1).length : ℚ)))
      ∧ ∀ x ∈ h2hSel [recB, recC] "P1" "Q1" 1,
          ∀ y ∈ (List.insertionSort recLater (h2hMatches [recB, recC] "P1" "Q1")).drop 1,
            y.date ≤ x.date) :=
  ⟨(C3_head_to_head [] "P1" "Q1" 20 "kills" 10).1 rfl,
   (C3_head_to_head [recB, recC] "P1" "Q1" 20 "kills" 1).2 (by decide)⟩

/-! ## Claim C4 -/

/-- Claim C4: for every input to the three Feature Engine functions, a
records table whose player filter selects no rows (in particular an
empty table) never raises — each embedded function is total — and every
numeric statistic field of the outputs is the missing sentinel (`nan` /
`none`), never zero, with the count fields 0. -/
theorem C4_empty_never_raises (tbl : List Rec) (player opponent stat : String)
    (line : ℚ) (window : ℕ) (pool : List (String × Option ℚ))
    (h : (tbl.filter (fun r => r.player == player)).isEmpty = true) :
    last15_features tbl player stat
      = [("count", PyVal.int 0), ("mean", PyVal.nan), ("median", PyVal.nan),
         ("std", PyVal.nan), ("over_rate", PyVal.nan)]
    ∧ head_to_head_over_rate tbl player opponent line stat window = ⟨0, none⟩
    ∧ (map_mixture_expectation tbl player pool stat).map_mixture_mu = none
    ∧ ∀ e ∈ (map_mixture_expectation tbl player pool stat).per_map, e.2.2 = none := by
  have hnil : tbl.filter (fun r => r.player == player) = [] := List.isEmpty_iff.mp h
  have hsel : sel15 tbl player = [] := by simp [sel15, hnil]
  have hh2h : h2hMatches tbl player opponent = [] := by
    exact filter_nil_mono (fun a ha => ((Bool.and_eq_true _ _).mp ha).1) hnil
  have hsel2 : h2hSel tbl player opponent window = [] := by simp [h2hSel, hh2h]
  have hmm : ∀ mn, mapMean tbl player mn stat = none := fun mn =>
    mapMean_eq_none_of_no_player_rows hnil mn stat
  have hcontrib : mixContrib tbl player stat pool = [] := by
    rw [mixContrib, List.filterMap_eq_nil_iff]
    intro e _
    by_cases hk : isPoolMetaKey e.1
    · simp [hk]
    · cases he : e.2 with
      | none => simp [hk, he]
      | some p =>
        by_cases hp : p ≤ 0
        · simp [hk, he, hp]
        · simp [hk, he, hp, hmm e.1]
  obtain ⟨h1, _, h3⟩ := mix_foldl_spec tbl player stat pool ⟨[], 0, 0⟩
  have htp : (pool.foldl (mixStep tbl player stat) ⟨[], 0, 0⟩).total_p = 0 := by
    rw [h3, (mixPSum_eq_zero_iff tbl player stat pool).mpr hcontrib]
    ring
  refine ⟨by simp [last15_features, hsel], by simp [head_to_head_over_rate, hsel2], ?_, ?_⟩
  · simp [map_mixture_expectation, htp]
  · intro e he
    have hper : (map_mixture_expectation tbl player pool stat).per_map
        = mixConsidered tbl player stat pool := by
      simp [map_mixture_expectation, htp, h1]
    rw [hper] at he
    obtain ⟨x, _, hfx⟩ := List.mem_filterMap.mp he
    by_cases hk : isPoolMetaKey x.1
    · simp [hk] at hfx
    · cases hx : x.2 with
      | none => simp [hk, hx] at hfx
      | some p =>
        by_cases hp : p ≤ 0
        · simp [hk, hx, hp] at hfx
        · simp [hk, hx, hp, hmm x.1] at hfx
          rw [← hfx]

/-- Claim C4, witness: all three functions evaluated on the empty
records table. -/
theorem C4_empty_never_raises_witness :
    last15_features [] "P1" "kills"
      = [("count", PyVal.int 0), ("mean", PyVal.nan), ("median", PyVal.nan),
         ("std", PyVal.nan), ("over_rate", PyVal.nan)]
    ∧ head_to_head_over_rate [] "P1" "Q1" 20 "kills" 10 = ⟨0, none⟩
    ∧ (map_mixture_expectation [] "P1" poolAB "kills").map_mixture_mu = none
    ∧ ∀ e ∈ (map_mixture_expectation [] "P1" poolAB "kills").per_map, e.2.2 = none :=
  C4_empty_never_raises [] "P1" "Q1" "kills" 20 10 poolAB rfl

/-- A sum of squared deviations is nonnegative. -/
theorem devsq_nonneg (l : List ℚ) : 0 ≤ devsq l := by
  unfold devsq
  apply List.sum_nonneg
  intro x hx
  obtain ⟨y, _, rfl⟩ := List.mem_map.mp hx
  exact sq_nonneg _

/-! ## Claim C5 -/

/-- Claim C5: with exactly one selected row, the std field of
`last15_features` is exactly the number 0 (not the nan sentinel); with
two or more selected rows it is the sample standard deviation with
Bessel's correction: the value in the std slot is nonnegative and its
square times (count − 1) is the sum of squared deviations from the
mean. -/
theorem C5_std_bessel (tbl : List Rec) (player stat : String) :
    ((sel15 tbl player).length = 1 →
      List.lookup "std" (last15_features tbl player stat) = some (PyVal.rat 0))
    ∧ (2 ≤ (sel15 tbl player).length →
      ∃ pv, List.lookup "std" (last15_features tbl player stat) = some pv
        ∧ pv ≠ PyVal.nan
        ∧ 0 ≤ pv.toReal
        ∧ pv.toReal ^ 2 * (((sel15 tbl player).length : ℝ) - 1)
            = ((devsq (statsOf (sel15 tbl player) stat) : ℚ) : ℝ)) := by
  constructor
  · intro h1
    have hne : (sel15 tbl player).isEmpty = false := by
      rw [List.isEmpty_eq_false]
      intro hnil
      rw [hnil] at h1
      simp at h1
    simp [last15_features, hne, List.lookup, h1]
  · intro h2
    have hne : (sel15 tbl player).isEmpty = false := by
      rw [List.isEmpty_eq_false]
      intro hnil
      rw [hnil] at h2
      simp at h2
    have hlt : 1 < (sel15 tbl player).length := h2
    refine ⟨PyVal.sqrtRat (devsq (statsOf (sel15 tbl player) stat)
        / (((sel15 tbl player).length : ℚ) - 1)), ?_, by simp, ?_, ?_⟩
    · simp [last15_features, hne, List.lookup, hlt]
    · simp only [PyVal.toReal]
      exact Real.sqrt_nonneg _
    · simp only [PyVal.toReal]
      have hn : (1 : ℝ) < ((sel15 tbl player).length : ℝ) := by
        exact_mod_cast hlt
      have hne0 : (((sel15 tbl player).length : ℝ) - 1) ≠ 0 :=
        ne_of_gt (by linarith)
      have hcast : ((devsq (statsOf (sel15 tbl player) stat)
            / (((sel15 tbl player).length : ℚ) - 1) : ℚ) : ℝ)
          = ((devsq (statsOf (sel15 tbl player) stat) : ℚ) : ℝ)
            / (((sel15 tbl player).length : ℝ) - 1) := by
        push_cast
        ring
      rw [hcast, Real.sq_sqrt ?hnn]
      case hnn =>
        apply div_nonneg
        · exact_mod_cast devsq_nonneg _
        · linarith
      exact div_mul_cancel₀ _ hne0

/-- Claim C5, witness: the one-row arm on a singleton table, and the
Bessel arm on a two-row table. -/
theorem C5_std_bessel_witness :
    List.lookup "std" (last15_features [recA] "P1" "kills") = some (PyVal.rat 0)
    ∧ ∃ pv, List.lookup "std" (last15_features [recB, recC] "P1" "kills") = some pv
        ∧ pv ≠ PyVal.nan
        ∧ 0 ≤ pv.toReal
        ∧ pv.toReal ^ 2 * (((sel15 [recB, recC] "P1").length : ℝ) - 1)
            = ((devsq (statsOf (sel15 [recB, recC] "P1") "kills") : ℚ) : ℝ) :=
  ⟨(C5_std_bessel [recA] "P1" "kills").1 (by decide),
   (C5_std_bessel [recB, recC] "P1" "kills").2 (by decide)⟩

/-! ## Claim C10 -/

/-- Claim C10: the key set of the dict returned by `last15_features`
differs between the empty and non-empty cases: five keys (including
`over_rate`) when the player filter selects no rows, four keys (no
`over_rate`) otherwise. -/
theorem C10_key_sets (tbl : List Rec) (player stat : String) :
    ((sel15 tbl player).isEmpty = true →
      (last15_features tbl player stat).map Prod.fst
        = ["count", "mean", "median", "std", "over_rate"])
    ∧ ((sel15 tbl player).isEmpty = false →
      (last15_features tbl player stat).map Prod.fst
        = ["count", "mean", "median", "std"]) := by
  constructor <;> intro h <;> simp [last15_features, h]

/-- Claim C10, witness: both arms, on the empty table and on a
singleton table. -/
theorem C10_key_sets_witness :
    (last15_features [] "P1" "kills").map Prod.fst
      = ["count", "mean", "median", "std", "over_rate"]
    ∧ (last15_features [recA] "P1" "kills").map Prod.fst
      = ["count", "mean", "median", "std"] :=
  ⟨(C10_key_sets [] "P1" "kills").1 rfl,
   (C10_key_sets [recA] "P1" "kills").2 (by decide)⟩

/-- The truthiness fill satisfies the falsy-aware fill property. -/
theorem fill_ok (a f : Option String) :
    filledOnlyWhereFalsy a f (if falsyStr a then f else a) := by
  unfold filledOnlyWhereFalsy falsyStr
  rcases a with _ | s
  · simp
  · by_cases hs : s = "" <;> simp [hs]

/-! ## Claim C2 -/

/-- Claim C2, counterexample.  The claim states that MatchMeta fields
are filled from the fallback only where the primary left them null.
The source tests Python truthiness (`if not meta.get(k)`), so a primary
event field holding the empty string — which is not null — is
nonetheless overwritten by the fallback's event. -/
theorem C2_counterexample :
    (parse_match_merged "https://www.vlr.gg/1/match" primaryC2 fallbackC2).meta.event
        = some "Ev"
    ∧ primaryC2.meta.event = some ""
    ∧ primaryC2.meta.event ≠ none
    ∧ (parse_match_merged "https://www.vlr.gg/1/match" primaryC2 fallbackC2).meta.event
        ≠ primaryC2.meta.event := by
  refine ⟨?_, rfl, by simp [primaryC2], ?_⟩ <;> decide

/-- Claim C2, amended: for every primary result with empty MapResult
collection and non-empty PlayerMapRecord collection, on a full-URL
input the merged output takes its maps from the fallback, keeps the
primary's player-map rows unchanged, takes vetoes from the primary when
non-empty and else from the fallback, and fills each MatchMeta field
from the fallback exactly where the primary's value is null OR the
empty string (Python falsiness), keeping it otherwise. -/
theorem C2_merge_policy (input : String) (primary fallback : ParseResult)
    (hurl : startsWithHttp input = true)
    (hmaps : primary.maps = [])
    (hpm : primary.pmaps ≠ []) :
    (parse_match_merged input primary fallback).maps = fallback.maps
    ∧ (parse_match_merged input primary fallback).pmaps = primary.pmaps
    ∧ (primary.vetoes ≠ [] →
        (parse_match_merged input primary fallback).vetoes = primary.vetoes)
    ∧ (primary.vetoes = [] →
        (parse_match_merged input primary fallback).vetoes = fallback.vetoes)
    ∧ filledOnlyWhereFalsy primary.meta.team_a fallback.meta.team_a
        (parse_match_merged input primary fallback).meta.team_a
    ∧ filledOnlyWhereFalsy primary.meta.team_b fallback.meta.team_b
        (parse_match_merged input primary fallback).meta.team_b
    ∧ filledOnlyWhereFalsy primary.meta.event fallback.meta.event
        (parse_match_merged input primary fallback).meta.event
    ∧ filledOnlyWhereFalsy primary.meta.bo_format fallback.meta.bo_format
        (parse_match_merged input primary fallback).meta.bo_format
    ∧ filledOnlyWhereFalsy primary.meta.date fallback.meta.date
        (parse_match_merged input primary fallback).meta.date := by
  have hm : primary.maps.isEmpty = true := by simp [hmaps]
  have hpe : primary.pmaps.isEmpty = false := by
    rwa [List.isEmpty_eq_false]
  have hmerged : parse_match_merged input primary fallback
      = { meta := fillMeta primary.meta fallback.meta,
          maps := fallback.maps,
          pmaps := primary.pmaps,
          vetoes := if primary.vetoes.isEmpty then fallback.vetoes
                    else primary.vetoes } := by
    unfold parse_match_merged
    rw [hm]
    simp [hurl, hm, hpe]
  rw [hmerged]
  refine ⟨rfl, rfl, ?_, ?_, ?_, ?_, ?_, ?_, ?_⟩
  · intro hv
    have : primary.vetoes.isEmpty = false := by rwa [List.isEmpty_eq_false]
    simp [this]
  · intro hv
    simp [hv]
  · exact fill_ok _ _
  · exact fill_ok _ _
  · exact fill_ok _ _
  · exact fill_ok _ _
  · exact fill_ok _ _

/-- Claim C2 (amended), witness: the merge applied to the concrete
primary/fallback pair of the counterexample, on a full URL. -/
theorem C2_merge_policy_witness :
    (parse_match_merged "https://www.vlr.gg/1/match" primaryC2 fallbackC2).maps
        = fallbackC2.maps
    ∧ (parse_match_merged "https://www.vlr.gg/1/match" primaryC2 fallbackC2).pmaps
        = primaryC2.pmaps
    ∧ (primaryC2.vetoes ≠ [] →
        (parse_match_merged "https://www.vlr.gg/1/match" primaryC2 fallbackC2).vetoes
          = primaryC2.vetoes)
    ∧ (primaryC2.vetoes = [] →
        (parse_match_merged "https://www.vlr.gg/1/match" primaryC2 fallbackC2).vetoes
          = fallbackC2.vetoes)
    ∧ filledOnlyWhereFalsy primaryC2.meta.team_a fallbackC2.meta.team_a
        (parse_match_merged "https://www.vlr.gg/1/match" primaryC2 fallbackC2).meta.team_a
    ∧ filledOnlyWhereFalsy primaryC2.meta.team_b fallbackC2.meta.team_b
        (parse_match_merged "https://www.vlr.gg/1/match" primaryC2 fallbackC2).meta.team_b
    ∧ filledOnlyWhereFalsy primaryC2.meta.event fallbackC2.meta.event
        (parse_match_merged "https://www.vlr.gg/1/match" primaryC2 fallbackC2).meta.event
    ∧ filledOnlyWhereFalsy primaryC2.meta.bo_format fallbackC2.meta.bo_format
        (parse_match_merged "https://www.vlr.gg/1/match" primaryC2 fallbackC2).meta.bo_format
    ∧ filledOnlyWhereFalsy primaryC2.meta.date fallbackC2.meta.date
        (parse_match_merged "https://www.vlr.gg/1/match" primaryC2 fallbackC2).meta.date :=
  C2_merge_policy "https://www.vlr.gg/1/match" primaryC2 fallbackC2
    (by decide) rfl (by decide)

/-! ## Claim C6 -/

/-- Claim C6, counterexample.  The claim states that the scraper-path
winner equals team_b exactly when s_b is strictly larger; on a tied
score pattern (5, 5) the source still assigns the winner to team_b. -/
theorem C6_counterexample :
    (scraperMapRow "Alpha" "Beta" 1 none none (some (5, 5))).winner = some "Beta"
    ∧ ¬ ((5 : ℕ) > 5) ∧ "Beta" ≠ "Alpha" := by
  refine ⟨by decide, by decide, by decide⟩

/-- Claim C6, amended: for every map block with an extracted score
pattern (s_a, s_b), the scraper-path winner is team_a exactly when
s_a is strictly larger, and team_b otherwise — in particular a tied
score is awarded to team_b. -/
theorem C6_scraper_winner (team_a team_b : String) (map_num : ℕ)
    (map_name picked_by : Option String) (s_a s_b : ℕ) :
    (s_b < s_a →
      (scraperMapRow team_a team_b map_num map_name picked_by (some (s_a, s_b))).winner
        = some team_a)
    ∧ (s_a ≤ s_b →
      (scraperMapRow team_a team_b map_num map_name picked_by (some (s_a, s_b))).winner
        = some team_b) := by
  constructor
  · intro h
    simp [scraperMapRow, h]
  · intro h
    simp [scraperMapRow, if_neg (Nat.not_lt.mpr h)]

/-- Claim C6 (amended), witness: both directions on concrete scores. -/
theorem C6_scraper_winner_witness :
    (scraperMapRow "Alpha" "Beta" 1 none none (some (13, 7))).winner = some "Alpha"
    ∧ (scraperMapRow "Alpha" "Beta" 1 none none (some (7, 13))).winner = some "Beta" :=
  ⟨(C6_scraper_winner "Alpha" "Beta" 1 none none 13 7).1 (by decide),
   (C6_scraper_winner "Alpha" "Beta" 1 none none 7 13).2 (by decide)⟩

/-! ## Claim C7 -/

/-- Claim C7, counterexample.  The claim states that every acquired
MapResult row with a non-null winner has the winner equal to one of the
two match teams.  The API path copies the winner verbatim from the
payload: a payload naming teams A and B but winner C passes the team
sanity check and yields a violating row. -/
theorem C7_counterexample :
    apiTeamsOk payloadC7 = true
    ∧ apiTeamA payloadC7 = some "A"
    ∧ apiTeamB payloadC7 = some "B"
    ∧ (apiMapRows "123" payloadC7).map MapRow.winner = [some "C"]
    ∧ some "C" ≠ apiTeamA payloadC7
    ∧ some "C" ≠ apiTeamB payloadC7
    ∧ (some "C" : Option String) ≠ none := by
  refine ⟨by decide, by decide, by decide, by decide, by decide, by decide, by decide⟩

/-- Claim C7, amended: scraper-path map rows always satisfy the
invariant (a non-null winner is one of the two teams), while API-path
rows carry the upstream winner verbatim, so the invariant holds for
them only if the upstream data already satisfies it. -/
theorem C7_winner_invariant :
    (∀ (team_a team_b : String) (map_num : ℕ)
        (map_name picked_by : Option String) (scorePat : Option (ℕ × ℕ)),
      (scraperMapRow team_a team_b map_num map_name picked_by scorePat).winner = none
      ∨ (scraperMapRow team_a team_b map_num map_name picked_by scorePat).winner
          = some team_a
      ∨ (scraperMapRow team_a team_b map_num map_name picked_by scorePat).winner
          = some team_b)
    ∧ (∀ (match_id : String) (i : ℕ) (m : ApiMapObj),
      (apiMapRow match_id i m).winner = m.winner) := by
  constructor
  · intro a b n mn pb sp
    cases sp with
    | none => exact Or.inl rfl
    | some s =>
      obtain ⟨sa, sb⟩ := s
      by_cases h : sb < sa
      · refine Or.inr (Or.inl ?_)
        simp [scraperMapRow, h]
      · refine Or.inr (Or.inr ?_)
        simp [scraperMapRow, h]
  · intro mid i m
    rfl

/-! ## Claim C8 -/

/-- Claim C8, counterexample.  The claim states that when no match
succeeds each of the three aggregated collections is empty with the
full canonical column schema.  The maps and player-maps collections
are, but the match-metadata collection is `pd.DataFrame([])` — an empty
DataFrame with no columns at all. -/
theorem C8_counterexample :
    (scrape_matches resolverFail ["x"]).1.cols = []
    ∧ metaCols ≠ []
    ∧ (scrape_matches resolverFail ["x"]).1.rows = []
    ∧ (scrape_matches resolverFail ["x"]).2.1 = ⟨mapCols, []⟩
    ∧ (scrape_matches resolverFail ["x"]).2.2 = ⟨pmapCols, []⟩ := by
  refine ⟨by decide, by decide, by decide, by decide, by decide⟩

/-- Claim C8, amended: batch resolution resolves each locator
independently, catching and skipping any item whose resolution raises,
so that no exception escapes (the embedded batch function is total for
every resolver); the metadata rows are exactly one per successful
locator in order, and the map and player-map rows are the concatenation
of the successes' collections; the maps and player-maps DataFrames
carry the full canonical column schema even when empty, while the
match-metadata DataFrame has the canonical schema when at least one
match succeeds and no columns at all when none does. -/
theorem C8_batch_skip_and_schema (resolve : String → Except Unit ParseResult)
    (urls : List String) :
    (scrape_matches resolve urls).1.rows
        = urls.filterMap (fun u =>
            match resolve u with
            | Except.ok r => some (metaRowOf u r)
            | Except.error _ => none)
    ∧ (scrape_matches resolve urls).2.1.rows
        = (urls.filterMap (fun u =>
            match resolve u with
            | Except.ok r => some r.maps
            | Except.error _ => none)).flatten
    ∧ (scrape_matches resolve urls).2.2.rows
        = (urls.filterMap (fun u =>
            match resolve u with
            | Except.ok r => some r.pmaps
            | Except.error _ => none)).flatten
    ∧ (scrape_matches resolve urls).2.1.cols = mapCols
    ∧ (scrape_matches resolve urls).2.2.cols = pmapCols
    ∧ ((scrape_matches resolve urls).1.rows.isEmpty = true →
        (scrape_matches resolve urls).1.cols = [])
    ∧ ((scrape_matches resolve urls).1.rows.isEmpty = false →
        (scrape_matches resolve urls).1.cols = metaCols) := by
  have hf := scrape_foldl_spec resolve urls ([], [], [])
  simp only [List.nil_append] at hf
  have h1 : (scrape_matches resolve urls).1.rows
      = urls.filterMap (fun u =>
          match resolve u with
          | Except.ok r => some (metaRowOf u r)
          | Except.error _ => none) := by
    simp only [scrape_matches, hf]
    by_cases he : (urls.filterMap (fun u =>
        match resolve u with
        | Except.ok r => some (metaRowOf u r)
        | Except.error _ => none)).isEmpty = true
    · rw [if_pos he, List.isEmpty_iff.mp he]
    · rw [if_neg he]
  refine ⟨h1, ?_, ?_, ?_, ?_, ?_, ?_⟩
  · rw [← flatten_chunks resolve ParseResult.maps urls]
    simp only [scrape_matches, hf]
    by_cases he : (urls.filterMap (fun u =>
        match resolve u with
        | Except.ok r => if r.maps.isEmpty then none else some r.maps
        | Except.error _ => none)).isEmpty = true
    · rw [if_pos he, List.isEmpty_iff.mp he]
      rfl
    · rw [if_neg he]
  · rw [← flatten_chunks resolve ParseResult.pmaps urls]
    simp only [scrape_matches, hf]
    by_cases he : (urls.filterMap (fun u =>
        match resolve u with
        | Except.ok r => if r.pmaps.isEmpty then none else some r.pmaps
        | Except.error _ => none)).isEmpty = true
    · rw [if_pos he, List.isEmpty_iff.mp he]
      rfl
    · rw [if_neg he]
  · simp only [scrape_matches, hf]
    by_cases he : (urls.filterMap (fun u =>
        match resolve u with
        | Except.ok r => if r.maps.isEmpty then none else some r.maps
        | Except.error _ => none)).isEmpty = true
    · rw [if_pos he]
    · rw [if_neg he]
  · simp only [scrape_matches, hf]
    by_cases he : (urls.filterMap (fun u =>
        match resolve u with
        | Except.ok r => if r.pmaps.isEmpty then none else some r.pmaps
        | Except.error _ => none)).isEmpty = true
    · rw [if_pos he]
    · rw [if_neg he]
  · intro hrows
    rw [h1] at hrows
    simp only [scrape_matches, hf]
    rw [if_pos hrows]
  · intro hrows
    rw [h1] at hrows
    simp only [scrape_matches, hf]
    rw [if_neg (by rw [hrows]; exact Bool.false_ne_true)]

/-- Claim C8 (amended), witness: a batch with one succeeding and one
failing locator (canonical metadata schema), and an all-failing batch
(no metadata columns). -/
theorem C8_batch_skip_and_schema_witness :
    (scrape_matches resolver1 ["u1", "bad"]).1.cols = metaCols
    ∧ (scrape_matches resolverFail ["x", "y"]).1.cols = [] :=
  ⟨(C8_batch_skip_and_schema resolver1 ["u1", "bad"]).2.2.2.2.2.2 (by decide),
   (C8_batch_skip_and_schema resolverFail ["x", "y"]).2.2.2.2.2.1 (by decide)⟩

/-! ## Claim C9 -/

/-- Claim C9: for every non-empty fetched offers table, the normalized
output has pairwise distinct offer ids; every input id is represented;
each retained row is the first input occurrence of its id; and the rows
are ordered by offer time descending with null times last (the order
`offerBefore`). -/
theorem C9_offers_dedupe_sort (fetched : List Offer) (h : fetched.isEmpty = false) :
    ((load_current_offers_valorant fetched).map Offer.offer_id).Nodup
    ∧ (∀ o ∈ fetched, ∃ o2 ∈ load_current_offers_valorant fetched,
        o2.offer_id = o.offer_id)
    ∧ (∀ o2 ∈ load_current_offers_valorant fetched,
        List.find? (fun x => x.offer_id == o2.offer_id) fetched = some o2)
    ∧ List.Sorted offerBefore (load_current_offers_valorant fetched) := by
  have hl : load_current_offers_valorant fetched
      = List.insertionSort offerBefore (dropDupOffers fetched []) := by
    simp [load_current_offers_valorant, h]
  obtain ⟨s1, s2, s3⟩ := dropDupOffers_spec fetched []
  have hperm := List.perm_insertionSort offerBefore (dropDupOffers fetched [])
  refine ⟨?_, ?_, ?_, ?_⟩
  · rw [hl]
    exact ((hperm.map Offer.offer_id).nodup_iff).mpr s2
  · intro o ho
    rcases s3 o ho with hmem | ⟨o2, h2, h3⟩
    · exact absurd hmem (List.not_mem_nil _)
    · refine ⟨o2, ?_, h3⟩
      rw [hl]
      exact hperm.mem_iff.mpr h2
  · intro o2 ho2
    rw [hl] at ho2
    exact (s1 o2 (hperm.mem_iff.mp ho2)).2
  · rw [hl]
    exact List.sorted_insertionSort offerBefore _

/-- Claim C9, witness: a fetched table with a duplicated id and a
null-time offer. -/
theorem C9_offers_dedupe_sort_witness :
    ((load_current_offers_valorant [offerA1, offerA2, offerB]).map Offer.offer_id).Nodup
    ∧ (∀ o ∈ [offerA1, offerA2, offerB],
        ∃ o2 ∈ load_current_offers_valorant [offerA1, offerA2, offerB],
          o2.offer_id = o.offer_id)
    ∧ (∀ o2 ∈ load_current_offers_valorant [offerA1, offerA2, offerB],
        List.find? (fun x => x.offer_id == o2.offer_id) [offerA1, offerA2, offerB]
          = some o2)
    ∧ List.Sorted offerBefore (load_current_offers_valorant [offerA1, offerA2, offerB]) :=
  C9_offers_dedupe_sort [offerA1, offerA2, offerB] rfl

end VantagePoint
